import Mathlib

/-! # Release pipeline of prometheus-rds-exporter (`dagger/main.go`)

A shallow embedding of the Dagger module that builds, packages and releases
the exporter.  Strings are Unicode text (module arguments reach the module
through the engine's API); the only separators the code uses, `v` and `/`,
are single ASCII bytes, so splitting and trimming by character coincides
with Go's byte-wise behaviour.

The module is run against an `Engine`, which answers the calls that take a
context (`DefaultPlatform`, `Commit`, `Entries`, `Stdout`, `Publish`,
`Sync`) and may fail each of them.  Every such call, and every artefact the
module describes with the lazy builder calls of the SDK, appends one entry
to a trace, in the order of the source.
-/

namespace RdsExporterDagger

/-! ## Go standard library: `strings` -/

namespace strings

/-- The Go function `strings.HasPrefix`. -/
def HasPrefix (s pre : String) : Bool :=
  pre.data.isPrefixOf s.data

/-- The Go function `strings.TrimPrefix`: `s` without the leading `pre`, or `s` itself
when it does not start with `pre`. -/
def TrimPrefix (s pre : String) : String :=
  if HasPrefix s pre then ⟨s.data.drop pre.data.length⟩ else s

/-- Scanning loop of the Go function `genSplit` for a non-empty separator: `skip`
counts the characters of a matched separator still to be passed over,
`cur` is the current piece, reversed. -/
def genSplit (sep : List Char) : List Char → Nat → List Char → List String
  | [], _, cur => [⟨cur.reverse⟩]
  | _ :: cs, skip + 1, cur => genSplit sep cs skip cur
  | c :: cs, 0, cur =>
    if sep.isPrefixOf (c :: cs) then
      ⟨cur.reverse⟩ :: genSplit sep cs (sep.length - 1) []
    else
      genSplit sep cs 0 (c :: cur)

/-- The Go function `strings.Split`: all pieces of `s` between occurrences of `sep`;
an empty `sep` explodes `s` into its characters. -/
def Split (s sep : String) : List String :=
  if sep.data = [] then s.data.map fun c => ⟨[c]⟩
  else genSplit sep.data s.data 0 []

end strings

/-! ## SDK values

Builder calls of the SDK are lazy: they describe a value.  Each record
below keeps the arguments of the builder calls of one pipeline of the
module, in the order of the source. -/

namespace dagger

/-- A git reference, `dag.Git(url).Tag(tag)`. -/
structure GitRef where
  url : String
  tag : String
deriving DecidableEq, Repr

/-- A secret handle. -/
structure Secret where
  name : String
deriving DecidableEq, Repr

/-- The file returned by `Binary`: the go build pipeline. -/
structure BinaryFile where
  -- the WithEnvVariable calls, in order
  env : List (String × String)
  -- WithMountedDirectory(".", Source.Tree())
  mounted : GitRef
  -- WithExec
  exec : List String
  -- File
  file : String
deriving DecidableEq, Repr

/-- The directory returned by `Overlay`: the binary at `root/sub/name`. -/
structure OverlayDir where
  root : String
  sub : String
  name : String
  binary : BinaryFile
deriving DecidableEq, Repr

/-- The container returned by `Container`. -/
structure Container where
  -- RedhatMicroContainerOpts.Platform
  platform : String
  -- WithDirectory("/", overlay)
  directory : String × OverlayDir
  -- WithEntrypoint
  entrypoint : List String
  -- WithDefaultArgs
  defaultArgs : List String
  -- WithExposedPort
  exposedPort : Nat
deriving DecidableEq, Repr

/-- The file returned by `Archive`: the tar pipeline. -/
structure ArchiveFile where
  -- WithMountedDirectory(".", Source.Tree())
  mounted : GitRef
  -- WithMountedFile
  mountedFile : String × BinaryFile
  -- WithExec
  exec : List String
  -- File
  file : String
deriving DecidableEq, Repr

/-- A directory of archives: name and file of each entry. -/
abbrev Directory := List (String × ArchiveFile)

/-- The empty directory, `dag.Directory()`. -/
def Directory.empty : Directory := []

/-- The SDK's `Directory.WithFile`: the file is written at `name`,
replacing a file already there. -/
def Directory.WithFile (d : Directory) (name : String) (f : ArchiveFile) : Directory :=
  d.filter (fun e => e.1 != name) ++ [(name, f)]

/-- Names of the files of a directory. -/
def Directory.names (d : Directory) : List String :=
  d.map Prod.fst

/-- The sha256sum pipeline whose standard output is read. -/
structure ChecksumRun where
  -- WithMountedDirectory(".", archives)
  mounted : Directory
  -- WithExec
  exec : List String
deriving DecidableEq, Repr

end dagger

/-- A Go slice: its elements and the capacity of its backing array. -/
structure Slice (α : Type) where
  elems : List α
  cap : Nat
deriving DecidableEq, Repr

/-- The Go builtin `make([]T, 0, cap)`. -/
def Slice.make {α : Type} (cap : Nat) : Slice α :=
  { elems := [], cap := cap }

/-- The Go builtin `len`. -/
def Slice.len {α : Type} (s : Slice α) : Nat :=
  s.elems.length

/-- The Go builtin `append(s, x)`: the capacity is kept while the backing array has
room; otherwise the runtime picks the new capacity (`grow`). -/
def Slice.append {α : Type} (grow : Nat → Nat) (s : Slice α) (x : α) : Slice α :=
  if s.len < s.cap then { elems := s.elems ++ [x], cap := s.cap }
  else { elems := s.elems ++ [x], cap := grow (s.len + 1) }

namespace dagger

/-- The `Publish` call: registry credentials, address and options. -/
structure Publication where
  -- WithRegistryAuth(address, username, secret)
  registryAuth : String × String × Secret
  address : String
  -- ContainerPublishOpts.PlatformVariants
  platformVariants : Slice Container
deriving DecidableEq, Repr

/-- The GitHub CLI pipeline that `Sync` forces. -/
structure GithubRun where
  -- argument of dag.Github
  cliVersion : String
  -- the WithEnvVariable calls, in order
  env : List (String × String)
  -- the WithSecretVariable calls, in order
  secretEnv : List (String × Secret)
  -- WithMountedDirectory(".", archives)
  mounted : Directory
  -- the WithNewFile calls: path and contents
  newFiles : List (String × String)
  -- the WithExec calls, in order
  execs : List (List String)
deriving DecidableEq, Repr

end dagger

/-! ## Engine, trace and results -/

/-- Answer of the engine to a context call: a value or an error. -/
inductive Reply (α : Type) where
  | ok (val : α)
  | fail (err : String)
deriving DecidableEq, Repr

/-- The world outside the module.  The first argument of every field is
the number of trace entries already written, so the same request may be
answered differently at different moments of a run. -/
structure Engine where
  -- dag.DefaultPlatform(ctx)
  defaultPlatform : Nat → Reply String
  -- GitRef.Commit(ctx)
  commit : Nat → dagger.GitRef → Reply String
  -- time.Now().Format("2006-01-02 15:04:05 -07:00")
  now : Nat → String
  -- Directory.Entries(ctx)
  entries : Nat → dagger.Directory → Reply (List String)
  -- Container.Stdout(ctx)
  stdout : Nat → dagger.ChecksumRun → Reply String
  -- Container.Publish(ctx, address, opts)
  publish : Nat → dagger.Publication → Reply String
  -- Container.Sync(ctx)
  sync : Nat → dagger.GithubRun → Reply Unit
  -- capacity the Go runtime gives a slice that append has to grow
  growslice : Nat → Nat

/-- One trace entry per context call (with the engine's answer) and per
artefact the module describes.  The commit query, the one context call
`Binary` makes on every path that passes its index reads, also records the
platform `Binary` is building for: the value of its variable `platform` at
that point. -/
inductive Event where
  | defaultPlatform (reply : Reply String)
  | commit (platform : String) (ref : dagger.GitRef) (reply : Reply String)
  | binary (f : dagger.BinaryFile)
  | overlay (d : dagger.OverlayDir)
  | container (c : dagger.Container)
  | archive (f : dagger.ArchiveFile)
  | withFile (name : String) (f : dagger.ArchiveFile)
  | entries (d : dagger.Directory) (reply : Reply (List String))
  | stdout (run : dagger.ChecksumRun) (reply : Reply String)
  | publish (p : dagger.Publication) (reply : Reply String)
  | sync (run : dagger.GithubRun) (reply : Reply Unit)
deriving DecidableEq, Repr

abbrev Trace := List Event

/-- Whether the engine answered the call with an error. -/
def Reply.failed {α : Type} : Reply α → Bool
  | .ok _ => false
  | .fail _ => true

/-- Whether the entry is a context call that failed. -/
def Event.failed : Event → Bool
  | .defaultPlatform r => r.failed
  | .commit _ _ r => r.failed
  | .entries _ r => r.failed
  | .stdout _ r => r.failed
  | .publish _ r => r.failed
  | .sync _ r => r.failed
  | .binary _ => false
  | .overlay _ => false
  | .container _ => false
  | .archive _ => false
  | .withFile _ _ => false

/-- What a trace entry is, without the engine's answer: for a binary, an
overlay or an archive the build environment of the binary, for a container
its platform, for an added file its name, for a command pipeline the
program run (the first word of the checksum command, the first three of
each GitHub CLI command), for a publication its address. -/
inductive Step where
  | defaultPlatform
  | commit
  | binary (env : List (String × String))
  | overlay (env : List (String × String))
  | container (platform : String)
  | archive (env : List (String × String))
  | withFile (name : String)
  | entries
  | stdout (program : List String)
  | publish (address : String)
  | sync (programs : List (List String))
deriving DecidableEq, Repr

/-- The step a trace entry stands for. -/
def Event.step : Event → Step
  | .defaultPlatform _ => .defaultPlatform
  | .commit _ _ _ => .commit
  | .binary f => .binary f.env
  | .overlay d => .overlay d.binary.env
  | .container c => .container c.platform
  | .archive f => .archive f.mountedFile.2.env
  | .withFile name _ => .withFile name
  | .entries _ _ => .entries
  | .stdout run _ => .stdout (run.exec.take 1)
  | .publish p _ => .publish p.address
  | .sync run _ => .sync (run.execs.map fun e => e.take 3)

/-- For an archive entry, the build environment of the binary it packs. -/
def Event.archiveEnv? : Event → Option (List (String × String))
  | .archive f => some f.mountedFile.2.env
  | .defaultPlatform _ => none
  | .commit _ _ _ => none
  | .binary _ => none
  | .overlay _ => none
  | .container _ => none
  | .withFile _ _ => none
  | .entries _ _ => none
  | .stdout _ _ => none
  | .publish _ _ => none
  | .sync _ _ => none

/-- For an addition to the archives directory, the name the file is given
and the build environment of the binary the added archive packs. -/
def Event.addedFile? : Event → Option (String × List (String × String))
  | .withFile name f => some (name, f.mountedFile.2.env)
  | .defaultPlatform _ => none
  | .commit _ _ _ => none
  | .binary _ => none
  | .overlay _ => none
  | .container _ => none
  | .archive _ => none
  | .entries _ _ => none
  | .stdout _ _ => none
  | .publish _ _ => none
  | .sync _ _ => none

/-- For a commit entry, the platform `Binary` was building for. -/
def Event.platform? : Event → Option String
  | .commit platform _ _ => some platform
  | .defaultPlatform _ => none
  | .binary _ => none
  | .overlay _ => none
  | .container _ => none
  | .archive _ => none
  | .withFile _ _ => none
  | .entries _ _ => none
  | .stdout _ _ => none
  | .publish _ _ => none
  | .sync _ _ => none

/-- How a Go function of the module ends: a value with a nil error, a
non-nil error (its message), or a run-time panic for an index out of
range. -/
inductive Result (α : Type) where
  | ok (val : α)
  | error (msg : String)
  | panic (index length : Nat)
deriving DecidableEq, Repr

/-! ## Constants and the module object -/

def RdsExporterBinaryName : String := "prometheus-rds-exporter"

def githubCliVersion : String := "2.53.0"

def githubRepository : String := "camptocamp/prometheus-rds-exporter"

structure RdsExporter where
  Version : String
  Tag : String
  Source : dagger.GitRef
deriving DecidableEq, Repr

/-- Constructor of the module object. -/
def New (tag : String) : RdsExporter :=
  let source : dagger.GitRef :=
    { url := "https://github.com/camptocamp/rds_exporter.git", tag := tag }
  let version := strings.TrimPrefix tag "v"
  { Version := version, Tag := tag, Source := source }

/-! ## The module functions -/

/-- Method `Binary`: cross-compiles the exporter for `platform` (the
default platform of the engine when it is empty). -/
def RdsExporter.Binary (eng : Engine) (rdsExporter : RdsExporter) (platform : String)
    (tr : Trace) : Result dagger.BinaryFile × Trace :=
  let resolved : Result String × Trace :=
    if platform = "" then
      match eng.defaultPlatform tr.length with
      | .fail err =>
        (.error ("failed to get platform: " ++ err), tr ++ [.defaultPlatform (.fail err)])
      | .ok defaultPlatform =>
        (.ok defaultPlatform, tr ++ [.defaultPlatform (.ok defaultPlatform)])
    else (.ok platform, tr)
  match resolved with
  | (.error msg, tr) => (.error msg, tr)
  | (.panic i n, tr) => (.panic i n, tr)
  | (.ok platform, tr) =>
    let platformElements := strings.Split platform "/"
    match platformElements[0]? with
    | none => (.panic 0 platformElements.length, tr)
    | some os =>
      match platformElements[1]? with
      | none => (.panic 1 platformElements.length, tr)
      | some arch =>
        match eng.commit tr.length rdsExporter.Source with
        | .fail err =>
          (.error ("failed to get commit hash: " ++ err),
            tr ++ [.commit platform rdsExporter.Source (.fail err)])
        | .ok commit =>
          let tr := tr ++ [.commit platform rdsExporter.Source (.ok commit)]
          let binary : dagger.BinaryFile :=
            { env := [("GOOS", os), ("GOARCH", arch)]
              mounted := rdsExporter.Source
              exec := ["go", "build", "-o", RdsExporterBinaryName, "-ldflags", "-s -w " ++
                ("-X 'github.com/prometheus/common/version.Version=" ++
                  rdsExporter.Version ++ "'") ++ " " ++
                ("-X 'github.com/prometheus/common/version.Revision=" ++ commit ++ "'") ++ " " ++
                ("-X 'github.com/prometheus/common/version.BuildDate=" ++
                  eng.now tr.length ++ "'")]
              file := RdsExporterBinaryName }
          (.ok binary, tr ++ [.binary binary])

/-- Method `Overlay`; `pre` is its optional prefix argument. -/
def RdsExporter.Overlay (eng : Engine) (rdsExporter : RdsExporter) (platform : String)
    (pre : String) (tr : Trace) : Result dagger.OverlayDir × Trace :=
  let pre := if pre = "" then "/usr/local" else pre
  match rdsExporter.Binary eng platform tr with
  | (.error err, tr) => (.error ("failed to get binary: " ++ err), tr)
  | (.panic i n, tr) => (.panic i n, tr)
  | (.ok binary, tr) =>
    let overlay : dagger.OverlayDir :=
      { root := pre, sub := "bin", name := RdsExporterBinaryName, binary := binary }
    (.ok overlay, tr ++ [.overlay overlay])

/-- Method `Container`. -/
def RdsExporter.Container (eng : Engine) (rdsExporter : RdsExporter) (platform : String)
    (tr : Trace) : Result dagger.Container × Trace :=
  match rdsExporter.Overlay eng platform "" tr with
  | (.error err, tr) => (.error ("failed to get overlay: " ++ err), tr)
  | (.panic i n, tr) => (.panic i n, tr)
  | (.ok overlay, tr) =>
    let container : dagger.Container :=
      { platform := platform
        directory := ("/", overlay)
        entrypoint := [RdsExporterBinaryName]
        defaultArgs := ["--config.file=/etc/rds_exporter/config.yml"]
        exposedPort := 9042 }
    (.ok container, tr ++ [.container container])

/-- Method `Archive`. -/
def RdsExporter.Archive (eng : Engine) (rdsExporter : RdsExporter) (platform : String)
    (tr : Trace) : Result dagger.ArchiveFile × Trace :=
  match rdsExporter.Binary eng platform tr with
  | (.error err, tr) => (.error ("failed to get binary: " ++ err), tr)
  | (.panic i n, tr) => (.panic i n, tr)
  | (.ok binary, tr) =>
    let archiveName := RdsExporterBinaryName ++ ".tar.gz"
    let archive : dagger.ArchiveFile :=
      { mounted := rdsExporter.Source
        mountedFile := (RdsExporterBinaryName, binary)
        exec := ["tar", "-czvf", archiveName, RdsExporterBinaryName, "LICENSE", "CHANGELOG.md",
          "README.md"]
        file := archiveName }
    (.ok archive, tr ++ [.archive archive])

/-- Inner loop of `Release` over the architectures, for one operating
system. -/
def RdsExporter.Release.archesLoop (eng : Engine) (rdsExporter : RdsExporter) (os : String) :
    List String → dagger.Directory → Trace → Result dagger.Directory × Trace
  | [], archives, tr => (.ok archives, tr)
  | arch :: rest, archives, tr =>
    let platform := os ++ "/" ++ arch
    match rdsExporter.Archive eng platform tr with
    | (.error err, tr) =>
      (.error ("failed to get archive for platform " ++ platform ++ ": " ++ err), tr)
    | (.panic i n, tr) => (.panic i n, tr)
    | (.ok archive, tr) =>
      let name := RdsExporterBinaryName ++ "-" ++ os ++ "-" ++ arch ++ ".tar.gz"
      archesLoop eng rdsExporter os rest (archives.WithFile name archive)
        (tr ++ [.withFile name archive])

/-- Outer loop of `Release` over the operating systems. -/
def RdsExporter.Release.osesLoop (eng : Engine) (rdsExporter : RdsExporter)
    (arches : List String) :
    List String → dagger.Directory → Trace → Result dagger.Directory × Trace
  | [], archives, tr => (.ok archives, tr)
  | os :: rest, archives, tr =>
    match archesLoop eng rdsExporter os arches archives tr with
    | (.ok archives, tr) => osesLoop eng rdsExporter arches rest archives tr
    | stop => stop

/-- Second loop of `Release`: one linux container per architecture. -/
def RdsExporter.Release.containersLoop (eng : Engine) (rdsExporter : RdsExporter) :
    List String → Slice dagger.Container → Trace → Result (Slice dagger.Container) × Trace
  | [], containers, tr => (.ok containers, tr)
  | arch :: rest, containers, tr =>
    let platform := "linux/" ++ arch
    match rdsExporter.Container eng platform tr with
    | (.error err, tr) =>
      (.error ("failed to get container for platform " ++ platform ++ ": " ++ err), tr)
    | (.panic i n, tr) => (.panic i n, tr)
    | (.ok container, tr) =>
      containersLoop eng rdsExporter rest (containers.append eng.growslice container) tr

/-- Method `Release`, run from an empty trace; `Result.ok ()` is the nil
error. -/
def RdsExporter.Release (eng : Engine) (rdsExporter : RdsExporter)
    (githubToken : dagger.Secret) : Result Unit × Trace :=
  let oses := ["linux", "darwin"]
  let arches := ["amd64", "arm64"]
  match Release.osesLoop eng rdsExporter arches oses dagger.Directory.empty [] with
  | (.error msg, tr) => (.error msg, tr)
  | (.panic i n, tr) => (.panic i n, tr)
  | (.ok archives, tr) =>
    match Release.containersLoop eng rdsExporter arches
        (Slice.make (oses.length * arches.length)) tr with
    | (.error msg, tr) => (.error msg, tr)
    | (.panic i n, tr) => (.panic i n, tr)
    | (.ok containers, tr) =>
      match eng.entries tr.length archives with
      | .fail err =>
        (.error ("failed to get archive names: " ++ err), tr ++ [.entries archives (.fail err)])
      | .ok archiveNames =>
        let tr := tr ++ [.entries archives (.ok archiveNames)]
        let run : dagger.ChecksumRun :=
          { mounted := archives, exec := ["sha256sum"] ++ archiveNames }
        match eng.stdout tr.length run with
        | .fail err =>
          (.error ("failed to compute checksums: " ++ err), tr ++ [.stdout run (.fail err)])
        | .ok checksums =>
          let tr := tr ++ [.stdout run (.ok checksums)]
          let publication : dagger.Publication :=
            { registryAuth := ("ghcr.io", "dagger", githubToken)
              address := "ghcr.io/" ++ githubRepository ++ ":" ++ rdsExporter.Version
              platformVariants := containers }
          match eng.publish tr.length publication with
          | .fail err =>
            (.error ("failed to publish container image manifest list: " ++ err),
              tr ++ [.publish publication (.fail err)])
          | .ok ref =>
            let tr := tr ++ [.publish publication (.ok ref)]
            let checksumsName := "checksums.txt"
            let assetNames := archiveNames ++ [checksumsName]
            let github : dagger.GithubRun :=
              { cliVersion := githubCliVersion
                env := [("GH_REPO", githubRepository)]
                secretEnv := [("GH_TOKEN", githubToken)]
                mounted := archives
                newFiles := [(checksumsName, checksums)]
                execs := [["gh", "release", "create", "--title", rdsExporter.Tag,
                    rdsExporter.Tag],
                  ["gh", "release", "upload", rdsExporter.Tag] ++ assetNames] }
            match eng.sync tr.length github with
            | .fail err =>
              (.error ("failed to create release: " ++ err), tr ++ [.sync github (.fail err)])
            | .ok _ => (.ok (), tr ++ [.sync github (.ok ())])

/-! ## Sample engines -/

/-- An engine that answers every call successfully, with fixed values; the
listing returns the names of the directory in the order they were added. -/
def sampleEngine : Engine where
  defaultPlatform := fun _ => .ok "linux/amd64"
  commit := fun _ _ => .ok "0123abc"
  now := fun _ => "2024-07-01 12:00:00 +00:00"
  entries := fun _ d => .ok d.names
  stdout := fun _ _ => .ok "sums"
  publish := fun _ p => .ok p.address
  sync := fun _ _ => .ok ()
  growslice := fun n => 2 * n

/-- The sample engine, except that the registry refuses the publish. -/
def refusingEngine : Engine :=
  { sampleEngine with publish := fun _ _ => .fail "denied" }

/-! ## Values of a successful run

The values below name what a successful call of `Binary`, `Archive`,
`Container` and each stage of `Release` returns and writes to the trace;
they only serve to state the lemmas on the module functions. -/

/-- The file a successful `Binary` returns for `os/arch`, given the commit
hash and the formatted build date. -/
def binaryOf (rds : RdsExporter) (os arch commit date : String) : dagger.BinaryFile :=
  { env := [("GOOS", os), ("GOARCH", arch)]
    mounted := rds.Source
    exec := ["go", "build", "-o", RdsExporterBinaryName, "-ldflags", "-s -w " ++
      ("-X 'github.com/prometheus/common/version.Version=" ++ rds.Version ++ "'") ++ " " ++
      ("-X 'github.com/prometheus/common/version.Revision=" ++ commit ++ "'") ++ " " ++
      ("-X 'github.com/prometheus/common/version.BuildDate=" ++ date ++ "'")]
    file := RdsExporterBinaryName }

/-- The file a successful `Archive` returns for a binary. -/
def archiveOf (rds : RdsExporter) (binary : dagger.BinaryFile) : dagger.ArchiveFile :=
  { mounted := rds.Source
    mountedFile := (RdsExporterBinaryName, binary)
    exec := ["tar", "-czvf", RdsExporterBinaryName ++ ".tar.gz", RdsExporterBinaryName, "LICENSE",
      "CHANGELOG.md", "README.md"]
    file := RdsExporterBinaryName ++ ".tar.gz" }

/-- The directory a successful `Overlay` with the default prefix returns. -/
def overlayOf (binary : dagger.BinaryFile) : dagger.OverlayDir :=
  { root := "/usr/local", sub := "bin", name := RdsExporterBinaryName, binary := binary }

/-- The container a successful `Container` returns for a binary. -/
def containerOf (platform : String) (binary : dagger.BinaryFile) : dagger.Container :=
  { platform := platform
    directory := ("/", overlayOf binary)
    entrypoint := [RdsExporterBinaryName]
    defaultArgs := ["--config.file=/etc/rds_exporter/config.yml"]
    exposedPort := 9042 }

/-- Trace entries of a successful `Archive` for `os/arch` started at trace
length `n`, followed by the addition of the archive to the directory. -/
@[simp]
def archiveRun (eng : Engine) (rds : RdsExporter) (os arch : String) (n : Nat)
    (commit : String) : Trace :=
  [.commit (os ++ "/" ++ arch) rds.Source (.ok commit),
    .binary (binaryOf rds os arch commit (eng.now (n + 1))),
    .archive (archiveOf rds (binaryOf rds os arch commit (eng.now (n + 1)))),
    .withFile (RdsExporterBinaryName ++ "-" ++ os ++ "-" ++ arch ++ ".tar.gz")
      (archiveOf rds (binaryOf rds os arch commit (eng.now (n + 1))))]

/-- Trace entries of a successful `Container` for `linux/arch` started at
trace length `n`. -/
@[simp]
def containerRun (eng : Engine) (rds : RdsExporter) (arch : String) (n : Nat)
    (commit : String) : Trace :=
  [.commit ("linux/" ++ arch) rds.Source (.ok commit),
    .binary (binaryOf rds "linux" arch commit (eng.now (n + 1))),
    .overlay (overlayOf (binaryOf rds "linux" arch commit (eng.now (n + 1)))),
    .container (containerOf ("linux/" ++ arch) (binaryOf rds "linux" arch commit (eng.now (n + 1))))]

/-- Trace of the four archive builds, given the four commit hashes. -/
@[simp]
def archivesTrace (eng : Engine) (rds : RdsExporter) (c0 c1 c2 c3 : String) : Trace :=
  archiveRun eng rds "linux" "amd64" 0 c0 ++ archiveRun eng rds "linux" "arm64" 4 c1 ++
    archiveRun eng rds "darwin" "amd64" 8 c2 ++ archiveRun eng rds "darwin" "arm64" 12 c3

/-- The archives directory after the four archive builds. -/
@[simp]
def archivesOf (eng : Engine) (rds : RdsExporter) (c0 c1 c2 c3 : String) : dagger.Directory :=
  [("prometheus-rds-exporter-linux-amd64.tar.gz",
      archiveOf rds (binaryOf rds "linux" "amd64" c0 (eng.now 1))),
    ("prometheus-rds-exporter-linux-arm64.tar.gz",
      archiveOf rds (binaryOf rds "linux" "arm64" c1 (eng.now 5))),
    ("prometheus-rds-exporter-darwin-amd64.tar.gz",
      archiveOf rds (binaryOf rds "darwin" "amd64" c2 (eng.now 9))),
    ("prometheus-rds-exporter-darwin-arm64.tar.gz",
      archiveOf rds (binaryOf rds "darwin" "arm64" c3 (eng.now 13)))]

/-- The slice of containers after the two container builds. -/
@[simp]
def containersOf (eng : Engine) (rds : RdsExporter) (c4 c5 : String) : Slice dagger.Container :=
  { elems := [containerOf "linux/amd64" (binaryOf rds "linux" "amd64" c4 (eng.now 17)),
      containerOf "linux/arm64" (binaryOf rds "linux" "arm64" c5 (eng.now 21))]
    cap := 4 }

/-- Trace of the four archive builds and the two container builds. -/
@[simp]
def buildsTrace (eng : Engine) (rds : RdsExporter) (c0 c1 c2 c3 c4 c5 : String) : Trace :=
  archivesTrace eng rds c0 c1 c2 c3 ++ containerRun eng rds "amd64" 16 c4 ++
    containerRun eng rds "arm64" 20 c5

/-- The checksum pipeline of `Release`. -/
@[simp]
def checksumRunOf (archives : dagger.Directory) (names : List String) : dagger.ChecksumRun :=
  { mounted := archives, exec := "sha256sum" :: names }

/-- The publication of `Release`. -/
@[simp]
def publicationOf (rds : RdsExporter) (tok : dagger.Secret)
    (containers : Slice dagger.Container) : dagger.Publication :=
  { registryAuth := ("ghcr.io", "dagger", tok)
    address := "ghcr.io/" ++ githubRepository ++ ":" ++ rds.Version
    platformVariants := containers }

/-- The GitHub CLI pipeline of `Release`. -/
@[simp]
def githubRunOf (rds : RdsExporter) (tok : dagger.Secret) (archives : dagger.Directory)
    (names : List String) (checksums : String) : dagger.GithubRun :=
  { cliVersion := githubCliVersion
    env := [("GH_REPO", githubRepository)]
    secretEnv := [("GH_TOKEN", tok)]
    mounted := archives
    newFiles := [("checksums.txt", checksums)]
    execs := [["gh", "release", "create", "--title", rds.Tag, rds.Tag],
      "gh" :: "release" :: "upload" :: rds.Tag :: (names ++ ["checksums.txt"])] }

/-! ## Sample evaluations -/

theorem strings.split_samples :
    strings.Split "linux/arm/v7" "/" = ["linux", "arm", "v7"] ∧
    strings.Split "linux" "/" = ["linux"] ∧
    strings.Split "" "/" = [""] ∧
    strings.Split "a/" "/" = ["a", ""] ∧
    strings.Split "a--b-c" "--" = ["a", "b-c"] ∧
    strings.Split "ab" "" = ["a", "b"] := by decide

theorem sampleEngine_run :
    ((New "v1.2.3").Release sampleEngine ⟨"token"⟩).1 = .ok () ∧
    ((New "v1.2.3").Release sampleEngine ⟨"token"⟩).2.length = 28 := by decide

theorem refusingEngine_run :
    ((New "v1.2.3").Release refusingEngine ⟨"token"⟩).1 =
      .error "failed to publish container image manifest list: denied" ∧
    ((New "v1.2.3").Release refusingEngine ⟨"token"⟩).2.length = 27 ∧
    (((New "v1.2.3").Release refusingEngine ⟨"token"⟩).2.map Event.step).getLast? =
      some (.publish "ghcr.io/camptocamp/prometheus-rds-exporter:1.2.3") := by decide

theorem New_samples :
    New "v1.2.3" =
      { Version := "1.2.3", Tag := "v1.2.3",
        Source := { url := "https://github.com/camptocamp/rds_exporter.git", tag := "v1.2.3" } } ∧
    (New "1.2.3").Version = "1.2.3" ∧ (New "vv1").Version = "v1" ∧ (New "").Version = "" ∧
    (New "v").Version = "" := by decide

/-! ## Lemmas on strings -/

theorem strings.hasPrefix_v_iff (t : String) :
    strings.HasPrefix t "v" = true ↔ ∃ r : String, t = "v" ++ r := by
  constructor
  · intro h
    rcases t with ⟨cs⟩
    cases cs with
    | nil => simp [strings.HasPrefix, List.isPrefixOf] at h
    | cons c cs =>
      have hc : c = 'v' := by
        have hv : ("v" : String).data = ['v'] := rfl
        simp only [strings.HasPrefix, hv, List.isPrefixOf, Bool.and_true, beq_iff_eq] at h
        exact h.symm
      exact ⟨⟨cs⟩, by subst hc; rfl⟩
  · rintro ⟨r, rfl⟩
    simp [strings.HasPrefix, List.isPrefixOf]

theorem strings.trimPrefix_v_append (r : String) : strings.TrimPrefix ("v" ++ r) "v" = r := by
  have h : strings.HasPrefix ("v" ++ r) "v" = true := (strings.hasPrefix_v_iff _).2 ⟨r, rfl⟩
  simp [strings.TrimPrefix, h]

theorem strings.genSplit_slash_length (s cur : List Char) :
    (strings.genSplit ['/'] s 0 cur).length = s.count '/' + 1 := by
  induction s generalizing cur with
  | nil => simp [strings.genSplit]
  | cons c cs ih =>
    by_cases hc : c = '/'
    · subst hc
      simp [strings.genSplit, List.isPrefixOf, ih]
    · have hc2 : ¬ '/' = c := fun h => hc h.symm
      simp [strings.genSplit, List.isPrefixOf, ih, hc, hc2, List.count_cons]

theorem strings.genSplit_slash_none (s cur : List Char) (h : '/' ∉ s) :
    strings.genSplit ['/'] s 0 cur = [⟨cur.reverse ++ s⟩] := by
  induction s generalizing cur with
  | nil => simp [strings.genSplit]
  | cons c cs ih =>
    have hc : ¬ '/' = c := by
      intro e; subst e; exact h (List.mem_cons_self _ _)
    have hcs : '/' ∉ cs := fun e => h (List.mem_cons_of_mem _ e)
    simp [strings.genSplit, List.isPrefixOf, hc, ih _ hcs]

theorem strings.genSplit_slash_first (a rest cur : List Char) (h : '/' ∉ a) :
    strings.genSplit ['/'] (a ++ '/' :: rest) 0 cur =
      ⟨cur.reverse ++ a⟩ :: strings.genSplit ['/'] rest 0 [] := by
  induction a generalizing cur with
  | nil => simp [strings.genSplit, List.isPrefixOf]
  | cons c cs ih =>
    have hc : ¬ '/' = c := by
      intro e; subst e; exact h (List.mem_cons_self _ _)
    have hcs : '/' ∉ cs := fun e => h (List.mem_cons_of_mem _ e)
    simp [strings.genSplit, List.isPrefixOf, hc, ih _ hcs]

theorem strings.split_slash_length (s : String) :
    (strings.Split s "/").length = s.data.count '/' + 1 := by
  have h : ("/" : String).data = ['/'] := rfl
  simp [strings.Split, h, strings.genSplit_slash_length]

theorem strings.split_slash_pair (os arch : String) (hos : '/' ∉ os.data)
    (harch : '/' ∉ arch.data) : strings.Split (os ++ "/" ++ arch) "/" = [os, arch] := by
  have h : ("/" : String).data = ['/'] := rfl
  have hd : (os ++ "/" ++ arch).data = os.data ++ '/' :: arch.data := by
    simp [String.data_append, h]
  simp [strings.Split, h, hd, strings.genSplit_slash_first _ _ _ hos,
    strings.genSplit_slash_none _ _ harch]

/-! ## Lemmas on the module functions -/

@[simp]
theorem binaryOf_env (rds : RdsExporter) (os arch commit date : String) :
    (binaryOf rds os arch commit date).env = [("GOOS", os), ("GOARCH", arch)] := rfl

@[simp]
theorem archiveOf_mountedFile (rds : RdsExporter) (binary : dagger.BinaryFile) :
    (archiveOf rds binary).mountedFile = (RdsExporterBinaryName, binary) := rfl

@[simp]
theorem overlayOf_binary (binary : dagger.BinaryFile) :
    (overlayOf binary).binary = binary := rfl

@[simp]
theorem containerOf_platform (platform : String) (binary : dagger.BinaryFile) :
    (containerOf platform binary).platform = platform := rfl

@[simp]
theorem containerOf_directory (platform : String) (binary : dagger.BinaryFile) :
    (containerOf platform binary).directory = ("/", overlayOf binary) := rfl

theorem RdsExporter.binary_of_split (eng : Engine) (rds : RdsExporter) (platform : String)
    (tr : Trace) (os arch : String) (rest : List String) (hne : platform ≠ "")
    (hs : strings.Split platform "/" = os :: arch :: rest) :
    rds.Binary eng platform tr =
      match eng.commit tr.length rds.Source with
      | .fail err =>
        (.error ("failed to get commit hash: " ++ err),
          tr ++ [.commit platform rds.Source (.fail err)])
      | .ok commit =>
        (.ok (binaryOf rds os arch commit (eng.now (tr.length + 1))),
          tr ++ [.commit platform rds.Source (.ok commit),
            .binary (binaryOf rds os arch commit (eng.now (tr.length + 1)))]) := by
  unfold RdsExporter.Binary
  simp only [hne, if_false, hs]
  cases eng.commit tr.length rds.Source <;> simp [binaryOf]

theorem RdsExporter.archive_of_split (eng : Engine) (rds : RdsExporter) (platform : String)
    (tr : Trace) (os arch : String) (rest : List String) (hne : platform ≠ "")
    (hs : strings.Split platform "/" = os :: arch :: rest) :
    rds.Archive eng platform tr =
      match eng.commit tr.length rds.Source with
      | .fail err =>
        (.error ("failed to get binary: " ++ ("failed to get commit hash: " ++ err)),
          tr ++ [.commit platform rds.Source (.fail err)])
      | .ok commit =>
        (.ok (archiveOf rds (binaryOf rds os arch commit (eng.now (tr.length + 1)))),
          tr ++ [.commit platform rds.Source (.ok commit),
            .binary (binaryOf rds os arch commit (eng.now (tr.length + 1))),
            .archive (archiveOf rds (binaryOf rds os arch commit (eng.now (tr.length + 1))))]) := by
  unfold RdsExporter.Archive
  rw [RdsExporter.binary_of_split eng rds platform tr os arch rest hne hs]
  cases eng.commit tr.length rds.Source <;> simp [archiveOf]

theorem RdsExporter.container_of_split (eng : Engine) (rds : RdsExporter) (platform : String)
    (tr : Trace) (os arch : String) (rest : List String) (hne : platform ≠ "")
    (hs : strings.Split platform "/" = os :: arch :: rest) :
    rds.Container eng platform tr =
      match eng.commit tr.length rds.Source with
      | .fail err =>
        (.error ("failed to get overlay: " ++
            ("failed to get binary: " ++ ("failed to get commit hash: " ++ err))),
          tr ++ [.commit platform rds.Source (.fail err)])
      | .ok commit =>
        (.ok (containerOf platform (binaryOf rds os arch commit (eng.now (tr.length + 1)))),
          tr ++ [.commit platform rds.Source (.ok commit),
            .binary (binaryOf rds os arch commit (eng.now (tr.length + 1))),
            .overlay (overlayOf (binaryOf rds os arch commit (eng.now (tr.length + 1)))),
            .container
              (containerOf platform (binaryOf rds os arch commit (eng.now (tr.length + 1))))]) := by
  unfold RdsExporter.Container RdsExporter.Overlay
  rw [RdsExporter.binary_of_split eng rds platform tr os arch rest hne hs]
  cases eng.commit tr.length rds.Source <;> simp [containerOf, overlayOf]

/-- Every run of `Release` is one of eleven: one of the ten context calls
fails and the run stops there with an error, or all succeed. -/
@[elab_as_elim]
theorem RdsExporter.release_cases (eng : Engine) (rds : RdsExporter) (tok : dagger.Secret)
    {P : Result Unit × Trace → Prop}
    (f0 : ∀ e msg, P (.error msg, [.commit "linux/amd64" rds.Source (.fail e)]))
    (f1 : ∀ c0 e msg, P (.error msg,
      archiveRun eng rds "linux" "amd64" 0 c0 ++
        [.commit "linux/arm64" rds.Source (.fail e)]))
    (f2 : ∀ c0 c1 e msg, P (.error msg,
      archiveRun eng rds "linux" "amd64" 0 c0 ++ archiveRun eng rds "linux" "arm64" 4 c1 ++
        [.commit "darwin/amd64" rds.Source (.fail e)]))
    (f3 : ∀ c0 c1 c2 e msg, P (.error msg,
      archiveRun eng rds "linux" "amd64" 0 c0 ++ archiveRun eng rds "linux" "arm64" 4 c1 ++
        archiveRun eng rds "darwin" "amd64" 8 c2 ++
        [.commit "darwin/arm64" rds.Source (.fail e)]))
    (f4 : ∀ c0 c1 c2 c3 e msg, P (.error msg,
      archivesTrace eng rds c0 c1 c2 c3 ++ [.commit "linux/amd64" rds.Source (.fail e)]))
    (f5 : ∀ c0 c1 c2 c3 c4 e msg, P (.error msg,
      archivesTrace eng rds c0 c1 c2 c3 ++ containerRun eng rds "amd64" 16 c4 ++
        [.commit "linux/arm64" rds.Source (.fail e)]))
    (f6 : ∀ c0 c1 c2 c3 c4 c5 e msg, P (.error msg,
      buildsTrace eng rds c0 c1 c2 c3 c4 c5 ++
        [.entries (archivesOf eng rds c0 c1 c2 c3) (.fail e)]))
    (f7 : ∀ c0 c1 c2 c3 c4 c5 names e msg, P (.error msg,
      buildsTrace eng rds c0 c1 c2 c3 c4 c5 ++
        [.entries (archivesOf eng rds c0 c1 c2 c3) (.ok names),
          .stdout (checksumRunOf (archivesOf eng rds c0 c1 c2 c3) names) (.fail e)]))
    (f8 : ∀ c0 c1 c2 c3 c4 c5 names sums e msg, P (.error msg,
      buildsTrace eng rds c0 c1 c2 c3 c4 c5 ++
        [.entries (archivesOf eng rds c0 c1 c2 c3) (.ok names),
          .stdout (checksumRunOf (archivesOf eng rds c0 c1 c2 c3) names) (.ok sums),
          .publish (publicationOf rds tok (containersOf eng rds c4 c5)) (.fail e)]))
    (f9 : ∀ c0 c1 c2 c3 c4 c5 names sums ref e msg, P (.error msg,
      buildsTrace eng rds c0 c1 c2 c3 c4 c5 ++
        [.entries (archivesOf eng rds c0 c1 c2 c3) (.ok names),
          .stdout (checksumRunOf (archivesOf eng rds c0 c1 c2 c3) names) (.ok sums),
          .publish (publicationOf rds tok (containersOf eng rds c4 c5)) (.ok ref),
          .sync (githubRunOf rds tok (archivesOf eng rds c0 c1 c2 c3) names sums) (.fail e)]))
    (ok : ∀ c0 c1 c2 c3 c4 c5 names sums ref, P (.ok (),
      buildsTrace eng rds c0 c1 c2 c3 c4 c5 ++
        [.entries (archivesOf eng rds c0 c1 c2 c3) (.ok names),
          .stdout (checksumRunOf (archivesOf eng rds c0 c1 c2 c3) names) (.ok sums),
          .publish (publicationOf rds tok (containersOf eng rds c4 c5)) (.ok ref),
          .sync (githubRunOf rds tok (archivesOf eng rds c0 c1 c2 c3) names sums) (.ok ())]))
    (run : Result Unit × Trace) (hrun : rds.Release eng tok = run) : P run := by
  subst hrun
  simp only [RdsExporter.Release, List.length_nil, List.nil_append, List.length_cons, List.length_append,
      Nat.reduceAdd, Nat.reduceMul, List.cons_append, List.append_assoc, String.reduceAppend,
      RdsExporter.Release.osesLoop, RdsExporter.Release.archesLoop,
      RdsExporter.Release.containersLoop,
      RdsExporter.archive_of_split eng rds "linux/amd64" _ "linux" "amd64" [] (by decide) (by decide),
      RdsExporter.archive_of_split eng rds "linux/arm64" _ "linux" "arm64" [] (by decide) (by decide),
      RdsExporter.archive_of_split eng rds "darwin/amd64" _ "darwin" "amd64" [] (by decide)
        (by decide),
      RdsExporter.archive_of_split eng rds "darwin/arm64" _ "darwin" "arm64" [] (by decide)
        (by decide),
      RdsExporter.container_of_split eng rds "linux/amd64" _ "linux" "amd64" [] (by decide)
        (by decide),
      RdsExporter.container_of_split eng rds "linux/arm64" _ "linux" "arm64" [] (by decide)
        (by decide)]
  rcases h0 : eng.commit 0 rds.Source with c0 | e0
  swap
  · exact f0 e0 _
  simp only [List.length_nil, List.nil_append, List.length_cons, List.length_append,
      Nat.reduceAdd, Nat.reduceMul, List.cons_append, List.append_assoc, String.reduceAppend,
      RdsExporter.Release.osesLoop, RdsExporter.Release.archesLoop,
      RdsExporter.Release.containersLoop,
      RdsExporter.archive_of_split eng rds "linux/amd64" _ "linux" "amd64" [] (by decide) (by decide),
      RdsExporter.archive_of_split eng rds "linux/arm64" _ "linux" "arm64" [] (by decide) (by decide),
      RdsExporter.archive_of_split eng rds "darwin/amd64" _ "darwin" "amd64" [] (by decide)
        (by decide),
      RdsExporter.archive_of_split eng rds "darwin/arm64" _ "darwin" "arm64" [] (by decide)
        (by decide),
      RdsExporter.container_of_split eng rds "linux/amd64" _ "linux" "amd64" [] (by decide)
        (by decide),
      RdsExporter.container_of_split eng rds "linux/arm64" _ "linux" "arm64" [] (by decide)
        (by decide)]
  rcases h1 : eng.commit 4 rds.Source with c1 | e1
  swap
  · exact f1 c0 e1 _
  simp only [List.length_nil, List.nil_append, List.length_cons, List.length_append,
      Nat.reduceAdd, Nat.reduceMul, List.cons_append, List.append_assoc, String.reduceAppend,
      RdsExporter.Release.osesLoop, RdsExporter.Release.archesLoop,
      RdsExporter.Release.containersLoop,
      RdsExporter.archive_of_split eng rds "linux/amd64" _ "linux" "amd64" [] (by decide) (by decide),
      RdsExporter.archive_of_split eng rds "linux/arm64" _ "linux" "arm64" [] (by decide) (by decide),
      RdsExporter.archive_of_split eng rds "darwin/amd64" _ "darwin" "amd64" [] (by decide)
        (by decide),
      RdsExporter.archive_of_split eng rds "darwin/arm64" _ "darwin" "arm64" [] (by decide)
        (by decide),
      RdsExporter.container_of_split eng rds "linux/amd64" _ "linux" "amd64" [] (by decide)
        (by decide),
      RdsExporter.container_of_split eng rds "linux/arm64" _ "linux" "arm64" [] (by decide)
        (by decide)]
  rcases h2 : eng.commit 8 rds.Source with c2 | e2
  swap
  · exact f2 c0 c1 e2 _
  simp only [List.length_nil, List.nil_append, List.length_cons, List.length_append,
      Nat.reduceAdd, Nat.reduceMul, List.cons_append, List.append_assoc, String.reduceAppend,
      RdsExporter.Release.osesLoop, RdsExporter.Release.archesLoop,
      RdsExporter.Release.containersLoop,
      RdsExporter.archive_of_split eng rds "linux/amd64" _ "linux" "amd64" [] (by decide) (by decide),
      RdsExporter.archive_of_split eng rds "linux/arm64" _ "linux" "arm64" [] (by decide) (by decide),
      RdsExporter.archive_of_split eng rds "darwin/amd64" _ "darwin" "amd64" [] (by decide)
        (by decide),
      RdsExporter.archive_of_split eng rds "darwin/arm64" _ "darwin" "arm64" [] (by decide)
        (by decide),
      RdsExporter.container_of_split eng rds "linux/amd64" _ "linux" "amd64" [] (by decide)
        (by decide),
      RdsExporter.container_of_split eng rds "linux/arm64" _ "linux" "arm64" [] (by decide)
        (by decide)]
  rcases h3 : eng.commit 12 rds.Source with c3 | e3
  swap
  · exact f3 c0 c1 c2 e3 _
  simp only [List.length_nil, List.nil_append, List.length_cons, List.length_append,
      Nat.reduceAdd, Nat.reduceMul, List.cons_append, List.append_assoc, String.reduceAppend,
      RdsExporter.Release.osesLoop, RdsExporter.Release.archesLoop,
      RdsExporter.Release.containersLoop,
      RdsExporter.archive_of_split eng rds "linux/amd64" _ "linux" "amd64" [] (by decide) (by decide),
      RdsExporter.archive_of_split eng rds "linux/arm64" _ "linux" "arm64" [] (by decide) (by decide),
      RdsExporter.archive_of_split eng rds "darwin/amd64" _ "darwin" "amd64" [] (by decide)
        (by decide),
      RdsExporter.archive_of_split eng rds "darwin/arm64" _ "darwin" "arm64" [] (by decide)
        (by decide),
      RdsExporter.container_of_split eng rds "linux/amd64" _ "linux" "amd64" [] (by decide)
        (by decide),
      RdsExporter.container_of_split eng rds "linux/arm64" _ "linux" "arm64" [] (by decide)
        (by decide)]
  rcases h4 : eng.commit 16 rds.Source with c4 | e4
  swap
  · exact f4 c0 c1 c2 c3 e4 _
  simp only [List.length_nil, List.nil_append, List.length_cons, List.length_append,
      Nat.reduceAdd, Nat.reduceMul, List.cons_append, List.append_assoc, String.reduceAppend,
      RdsExporter.Release.osesLoop, RdsExporter.Release.archesLoop,
      RdsExporter.Release.containersLoop,
      RdsExporter.archive_of_split eng rds "linux/amd64" _ "linux" "amd64" [] (by decide) (by decide),
      RdsExporter.archive_of_split eng rds "linux/arm64" _ "linux" "arm64" [] (by decide) (by decide),
      RdsExporter.archive_of_split eng rds "darwin/amd64" _ "darwin" "amd64" [] (by decide)
        (by decide),
      RdsExporter.archive_of_split eng rds "darwin/arm64" _ "darwin" "arm64" [] (by decide)
        (by decide),
      RdsExporter.container_of_split eng rds "linux/amd64" _ "linux" "amd64" [] (by decide)
        (by decide),
      RdsExporter.container_of_split eng rds "linux/arm64" _ "linux" "arm64" [] (by decide)
        (by decide)]
  rcases h5 : eng.commit 20 rds.Source with c5 | e5
  swap
  · exact f5 c0 c1 c2 c3 c4 e5 _
  simp only [List.length_nil, List.nil_append, List.length_cons, List.length_append,
      Nat.reduceAdd, Nat.reduceMul, List.cons_append, List.append_assoc, String.reduceAppend,
      RdsExporter.Release.osesLoop, RdsExporter.Release.archesLoop,
      RdsExporter.Release.containersLoop,
      RdsExporter.archive_of_split eng rds "linux/amd64" _ "linux" "amd64" [] (by decide) (by decide),
      RdsExporter.archive_of_split eng rds "linux/arm64" _ "linux" "arm64" [] (by decide) (by decide),
      RdsExporter.archive_of_split eng rds "darwin/amd64" _ "darwin" "amd64" [] (by decide)
        (by decide),
      RdsExporter.archive_of_split eng rds "darwin/arm64" _ "darwin" "arm64" [] (by decide)
        (by decide),
      RdsExporter.container_of_split eng rds "linux/amd64" _ "linux" "amd64" [] (by decide)
        (by decide),
      RdsExporter.container_of_split eng rds "linux/arm64" _ "linux" "arm64" [] (by decide)
        (by decide)]
  generalize hE : eng.entries 24 _ = rE
  rcases rE with names | e
  swap
  · exact f6 c0 c1 c2 c3 c4 c5 e _
  dsimp only
  generalize hS : eng.stdout 25 _ = rS
  rcases rS with sums | e
  swap
  · exact f7 c0 c1 c2 c3 c4 c5 names e _
  dsimp only
  generalize hP : eng.publish 26 _ = rP
  rcases rP with ref | e
  swap
  · exact f8 c0 c1 c2 c3 c4 c5 names sums e _
  dsimp only
  generalize hG : eng.sync 27 _ = rG
  rcases rG with u | e
  swap
  · exact f9 c0 c1 c2 c3 c4 c5 names sums ref e _
  exact ok c0 c1 c2 c3 c4 c5 names sums ref

/-! ## Shape of a run: consequences of the case analysis -/

theorem RdsExporter.release_nil_iff (eng : Engine) (rds : RdsExporter) (tok : dagger.Secret) :
    ((rds.Release eng tok).1 = .ok () ↔ ∀ e ∈ (rds.Release eng tok).2, e.failed = false) := by
  generalize hrun : rds.Release eng tok = run
  refine RdsExporter.release_cases eng rds tok ?_ ?_ ?_ ?_ ?_ ?_ ?_ ?_ ?_ ?_ ?_ run hrun
  all_goals intros
  all_goals simp [Event.failed, Reply.failed]

theorem RdsExporter.release_never_panics (eng : Engine) (rds : RdsExporter)
    (tok : dagger.Secret) (i n : Nat) : (rds.Release eng tok).1 ≠ .panic i n := by
  generalize hrun : rds.Release eng tok = run
  refine RdsExporter.release_cases eng rds tok ?_ ?_ ?_ ?_ ?_ ?_ ?_ ?_ ?_ ?_ ?_ run hrun
  all_goals intros
  all_goals simp

theorem RdsExporter.release_error_of_failed (eng : Engine) (rds : RdsExporter)
    (tok : dagger.Secret) (h : ∃ e ∈ (rds.Release eng tok).2, e.failed = true) :
    ∃ msg, (rds.Release eng tok).1 = .error msg := by
  obtain ⟨e, he, hf⟩ := h
  have hne : (rds.Release eng tok).1 ≠ .ok () := by
    intro hok
    have := (RdsExporter.release_nil_iff eng rds tok).1 hok e he
    simp [hf] at this
  have hnp := RdsExporter.release_never_panics eng rds tok
  cases hr : (rds.Release eng tok).1 with
  | ok u => exact absurd hr hne
  | error msg => exact ⟨msg, rfl⟩
  | panic i n => exact absurd hr (hnp i n)

theorem RdsExporter.release_stops_at_failure (eng : Engine) (rds : RdsExporter)
    (tok : dagger.Secret) : ∀ e ∈ (rds.Release eng tok).2.dropLast, e.failed = false := by
  suffices h : True ∧ ∀ e ∈ (rds.Release eng tok).2.dropLast, e.failed = false from h.2
  generalize hrun : rds.Release eng tok = run
  refine RdsExporter.release_cases eng rds tok ?_ ?_ ?_ ?_ ?_ ?_ ?_ ?_ ?_ ?_ ?_ run hrun
  all_goals intros
  all_goals refine ⟨trivial, ?_⟩
  all_goals simp [Event.failed, Reply.failed]

theorem RdsExporter.release_publish_after (eng : Engine) (rds : RdsExporter) (tok : dagger.Secret)
    (p : dagger.Publication) (r : Reply String)
    (h : Event.publish p r ∈ (rds.Release eng tok).2) :
    ((rds.Release eng tok).2.take 26).map Event.step =
      [.commit, .binary [("GOOS", "linux"), ("GOARCH", "amd64")],
        .archive [("GOOS", "linux"), ("GOARCH", "amd64")],
        .withFile "prometheus-rds-exporter-linux-amd64.tar.gz",
        .commit, .binary [("GOOS", "linux"), ("GOARCH", "arm64")],
        .archive [("GOOS", "linux"), ("GOARCH", "arm64")],
        .withFile "prometheus-rds-exporter-linux-arm64.tar.gz",
        .commit, .binary [("GOOS", "darwin"), ("GOARCH", "amd64")],
        .archive [("GOOS", "darwin"), ("GOARCH", "amd64")],
        .withFile "prometheus-rds-exporter-darwin-amd64.tar.gz",
        .commit, .binary [("GOOS", "darwin"), ("GOARCH", "arm64")],
        .archive [("GOOS", "darwin"), ("GOARCH", "arm64")],
        .withFile "prometheus-rds-exporter-darwin-arm64.tar.gz",
        .commit, .binary [("GOOS", "linux"), ("GOARCH", "amd64")],
        .overlay [("GOOS", "linux"), ("GOARCH", "amd64")], .container "linux/amd64",
        .commit, .binary [("GOOS", "linux"), ("GOARCH", "arm64")],
        .overlay [("GOOS", "linux"), ("GOARCH", "arm64")], .container "linux/arm64",
        .entries, .stdout ["sha256sum"]] ∧
    (∀ e ∈ (rds.Release eng tok).2.take 26, e.failed = false) ∧
    (rds.Release eng tok).2[26]? = some (.publish p r) := by
  revert h
  generalize hrun : rds.Release eng tok = run
  refine RdsExporter.release_cases eng rds tok ?_ ?_ ?_ ?_ ?_ ?_ ?_ ?_ ?_ ?_ ?_ run hrun
  all_goals intros
  all_goals rename_i h
  all_goals simp at h
  all_goals obtain ⟨rfl, rfl⟩ := h
  all_goals simp [Event.step, Event.failed, Reply.failed, RdsExporterBinaryName]

theorem RdsExporter.release_sync_after (eng : Engine) (rds : RdsExporter) (tok : dagger.Secret)
    (g : dagger.GithubRun) (r : Reply Unit)
    (h : Event.sync g r ∈ (rds.Release eng tok).2) :
    (∃ p ref, (rds.Release eng tok).2[26]? = some (.publish p (.ok ref))) ∧
    (rds.Release eng tok).2[27]? = some (.sync g r) ∧
    (rds.Release eng tok).2.length = 28 := by
  revert h
  generalize hrun : rds.Release eng tok = run
  refine RdsExporter.release_cases eng rds tok ?_ ?_ ?_ ?_ ?_ ?_ ?_ ?_ ?_ ?_ ?_ run hrun
  all_goals intros
  all_goals rename_i h
  all_goals simp at h
  all_goals obtain ⟨rfl, rfl⟩ := h
  all_goals simp

theorem RdsExporter.release_commit_platform (eng : Engine) (rds : RdsExporter)
    (tok : dagger.Secret) (p : String) (ref : dagger.GitRef) (r : Reply String)
    (h : Event.commit p ref r ∈ (rds.Release eng tok).2) :
    p = "linux/amd64" ∨ p = "linux/arm64" ∨ p = "darwin/amd64" ∨ p = "darwin/arm64" := by
  revert h
  generalize hrun : rds.Release eng tok = run
  refine RdsExporter.release_cases eng rds tok ?_ ?_ ?_ ?_ ?_ ?_ ?_ ?_ ?_ ?_ ?_ run hrun
  all_goals intros
  all_goals rename_i h
  all_goals simp at h
  all_goals tauto

theorem RdsExporter.release_platforms (eng : Engine) (rds : RdsExporter) (tok : dagger.Secret)
    (hok : ∀ e ∈ (rds.Release eng tok).2, e.failed = false) :
    (rds.Release eng tok).2.filterMap Event.platform? =
      ["linux/amd64", "linux/arm64", "darwin/amd64", "darwin/arm64", "linux/amd64",
        "linux/arm64"] := by
  revert hok
  generalize hrun : rds.Release eng tok = run
  refine RdsExporter.release_cases eng rds tok ?_ ?_ ?_ ?_ ?_ ?_ ?_ ?_ ?_ ?_ ?_ run hrun
  case refine_11 =>
    intros
    simp [Event.platform?]
  all_goals intros
  all_goals rename_i h
  all_goals simp [Event.failed, Reply.failed] at h

/-! ## The claims -/

/-- Claim C1: For every tag and every run of `Release` in which no context
call fails, `Release` returns nil and its trace is, in this order: the four
archive builds (each a commit query, the cross-compiled binary, the archive
and its addition to the directory), the two container builds, the listing of
the archives directory, the sha256sum run, the registry publish, and last the
GitHub CLI run whose commands are the release creation followed by the asset
upload. -/
theorem RdsExporter.release_trace_order (eng : Engine) (tag : String)
    (githubToken : dagger.Secret)
    (hok : ∀ e ∈ ((New tag).Release eng githubToken).2, e.failed = false) :
    ((New tag).Release eng githubToken).1 = .ok () ∧
    ((New tag).Release eng githubToken).2.map Event.step =
      [.commit, .binary [("GOOS", "linux"), ("GOARCH", "amd64")],
        .archive [("GOOS", "linux"), ("GOARCH", "amd64")],
        .withFile "prometheus-rds-exporter-linux-amd64.tar.gz",
        .commit, .binary [("GOOS", "linux"), ("GOARCH", "arm64")],
        .archive [("GOOS", "linux"), ("GOARCH", "arm64")],
        .withFile "prometheus-rds-exporter-linux-arm64.tar.gz",
        .commit, .binary [("GOOS", "darwin"), ("GOARCH", "amd64")],
        .archive [("GOOS", "darwin"), ("GOARCH", "amd64")],
        .withFile "prometheus-rds-exporter-darwin-amd64.tar.gz",
        .commit, .binary [("GOOS", "darwin"), ("GOARCH", "arm64")],
        .archive [("GOOS", "darwin"), ("GOARCH", "arm64")],
        .withFile "prometheus-rds-exporter-darwin-arm64.tar.gz",
        .commit, .binary [("GOOS", "linux"), ("GOARCH", "amd64")],
        .overlay [("GOOS", "linux"), ("GOARCH", "amd64")], .container "linux/amd64",
        .commit, .binary [("GOOS", "linux"), ("GOARCH", "arm64")],
        .overlay [("GOOS", "linux"), ("GOARCH", "arm64")], .container "linux/arm64",
        .entries, .stdout ["sha256sum"],
        .publish ("ghcr.io/camptocamp/prometheus-rds-exporter:" ++ (New tag).Version),
        .sync [["gh", "release", "create"], ["gh", "release", "upload"]]] := by
  revert hok
  generalize hrun : (New tag).Release eng githubToken = run
  refine RdsExporter.release_cases eng (New tag) githubToken ?_ ?_ ?_ ?_ ?_ ?_ ?_ ?_ ?_ ?_ ?_
    run hrun
  case refine_11 =>
    intros
    simp [Event.step, githubRepository, RdsExporterBinaryName]
  all_goals intros
  all_goals rename_i h
  all_goals simp [Event.failed, Reply.failed] at h

/-- Witness of C1: a run against the sample engine, where no call fails. -/
theorem RdsExporter.release_trace_order_witness :
    (∀ e ∈ ((New "v1.2.3").Release sampleEngine ⟨"token"⟩).2, e.failed = false) ∧
    ((New "v1.2.3").Release sampleEngine ⟨"token"⟩).1 = .ok () :=
  ⟨by decide, (RdsExporter.release_trace_order sampleEngine "v1.2.3" ⟨"token"⟩ (by decide)).1⟩

/-- Claim C2: For every tag, a successful `Release` requests exactly four
archives, for linux/amd64, linux/arm64, darwin/amd64 and darwin/arm64 in
this order, and adds each to the archives directory under the name
`prometheus-rds-exporter-<os>-<arch>.tar.gz`; the directory that is listed
holds the four files under these names, which are pairwise distinct and are
the names of the matrix of the two operating systems and two
architectures. -/
theorem RdsExporter.release_archives (eng : Engine) (tag : String)
    (githubToken : dagger.Secret)
    (hok : ((New tag).Release eng githubToken).1 = .ok ()) :
    ((New tag).Release eng githubToken).2.filterMap Event.archiveEnv? =
      [[("GOOS", "linux"), ("GOARCH", "amd64")], [("GOOS", "linux"), ("GOARCH", "arm64")],
        [("GOOS", "darwin"), ("GOARCH", "amd64")], [("GOOS", "darwin"), ("GOARCH", "arm64")]] ∧
    ((New tag).Release eng githubToken).2.filterMap Event.addedFile? =
      [("prometheus-rds-exporter-linux-amd64.tar.gz", [("GOOS", "linux"), ("GOARCH", "amd64")]),
        ("prometheus-rds-exporter-linux-arm64.tar.gz", [("GOOS", "linux"), ("GOARCH", "arm64")]),
        ("prometheus-rds-exporter-darwin-amd64.tar.gz", [("GOOS", "darwin"), ("GOARCH", "amd64")]),
        ("prometheus-rds-exporter-darwin-arm64.tar.gz",
          [("GOOS", "darwin"), ("GOARCH", "arm64")])] ∧
    (∃ d names, Event.entries d (.ok names) ∈ ((New tag).Release eng githubToken).2 ∧
      d.map (fun x => (x.1, x.2.mountedFile.2.env)) =
        [("prometheus-rds-exporter-linux-amd64.tar.gz",
            [("GOOS", "linux"), ("GOARCH", "amd64")]),
          ("prometheus-rds-exporter-linux-arm64.tar.gz",
            [("GOOS", "linux"), ("GOARCH", "arm64")]),
          ("prometheus-rds-exporter-darwin-amd64.tar.gz",
            [("GOOS", "darwin"), ("GOARCH", "amd64")]),
          ("prometheus-rds-exporter-darwin-arm64.tar.gz",
            [("GOOS", "darwin"), ("GOARCH", "arm64")])]) ∧
    (∀ d r, Event.entries d r ∈ ((New tag).Release eng githubToken).2 →
      d.names = ["prometheus-rds-exporter-linux-amd64.tar.gz",
        "prometheus-rds-exporter-linux-arm64.tar.gz",
        "prometheus-rds-exporter-darwin-amd64.tar.gz",
        "prometheus-rds-exporter-darwin-arm64.tar.gz"]) ∧
    ["prometheus-rds-exporter-linux-amd64.tar.gz", "prometheus-rds-exporter-linux-arm64.tar.gz",
      "prometheus-rds-exporter-darwin-amd64.tar.gz",
      "prometheus-rds-exporter-darwin-arm64.tar.gz"].Nodup ∧
    (["linux", "darwin"].flatMap fun os => ["amd64", "arm64"].map fun arch =>
        RdsExporterBinaryName ++ "-" ++ os ++ "-" ++ arch ++ ".tar.gz") =
      ["prometheus-rds-exporter-linux-amd64.tar.gz", "prometheus-rds-exporter-linux-arm64.tar.gz",
        "prometheus-rds-exporter-darwin-amd64.tar.gz",
        "prometheus-rds-exporter-darwin-arm64.tar.gz"] := by
  revert hok
  generalize hrun : (New tag).Release eng githubToken = run
  refine RdsExporter.release_cases eng (New tag) githubToken ?_ ?_ ?_ ?_ ?_ ?_ ?_ ?_ ?_ ?_ ?_
    run hrun
  case refine_11 =>
    intros
    refine ⟨by simp [Event.archiveEnv?], by simp [Event.addedFile?, RdsExporterBinaryName],
      ⟨_, _, by simp; exact ⟨rfl, rfl⟩, by simp⟩, ?_, by decide, by decide⟩
    intro d r h
    simp at h
    obtain ⟨rfl, rfl⟩ := h
    simp [dagger.Directory.names]
  all_goals intros
  all_goals rename_i h
  all_goals simp at h

/-- Witness of C2: the run against the sample engine returns nil. -/
theorem RdsExporter.release_archives_witness :
    ((New "v1.2.3").Release sampleEngine ⟨"token"⟩).1 = .ok () ∧
    ((New "v1.2.3").Release sampleEngine ⟨"token"⟩).2.filterMap Event.archiveEnv? =
      [[("GOOS", "linux"), ("GOARCH", "amd64")], [("GOOS", "linux"), ("GOARCH", "arm64")],
        [("GOOS", "darwin"), ("GOARCH", "amd64")], [("GOOS", "darwin"), ("GOARCH", "arm64")]] :=
  ⟨by decide, (RdsExporter.release_archives sampleEngine "v1.2.3" ⟨"token"⟩ (by decide)).1⟩

/-- Claim C3: For every tag `t`, `New t` keeps `Tag = t`; its `Version` is
`t` without one leading `v` when `t` starts with `v`, and `t` itself
otherwise (`v1.2.3` and `1.2.3` give `1.2.3`, `vv1` gives `v1`); so `Tag` is
`Version` or `v` followed by `Version`. -/
theorem New_tag_version (t : String) :
    (New t).Tag = t ∧
    (∀ r : String, t = "v" ++ r → (New t).Version = r) ∧
    ((¬ ∃ r : String, t = "v" ++ r) → (New t).Version = t) ∧
    (New "v1.2.3").Version = "1.2.3" ∧ (New "1.2.3").Version = "1.2.3" ∧
    (New "vv1").Version = "v1" ∧
    ((New t).Tag = (New t).Version ∨ (New t).Tag = "v" ++ (New t).Version) := by
  refine ⟨rfl, ?_, ?_, by decide, by decide, by decide, ?_⟩
  · rintro r rfl
    exact strings.trimPrefix_v_append r
  · intro h
    have hp : strings.HasPrefix t "v" = false := by
      cases hq : strings.HasPrefix t "v" with
      | false => rfl
      | true => exact absurd ((strings.hasPrefix_v_iff t).1 hq) h
    simp [New, strings.TrimPrefix, hp]
  · cases hq : strings.HasPrefix t "v" with
    | false => left; simp [New, strings.TrimPrefix, hq]
    | true =>
      right
      obtain ⟨r, rfl⟩ := (strings.hasPrefix_v_iff t).1 hq
      show "v" ++ r = "v" ++ strings.TrimPrefix ("v" ++ r) "v"
      rw [strings.trimPrefix_v_append]

/-- Claim C4: For every tag `t`, a successful `Release` of `New t` publishes
the image manifest list exactly once, to the address
`ghcr.io/camptocamp/prometheus-rds-exporter:` followed by `Version` (the tag
with its leading `v` trimmed), and runs the GitHub CLI exactly once, with
`GH_REPO` set to `camptocamp/prometheus-rds-exporter` and with
`gh release create --title t t` as its first command. -/
theorem RdsExporter.release_publish_and_create (eng : Engine) (t : String)
    (githubToken : dagger.Secret)
    (hok : ((New t).Release eng githubToken).1 = .ok ()) :
    ∃ p ref g upload,
      Event.publish p (.ok ref) ∈ ((New t).Release eng githubToken).2 ∧
      (∀ q r, Event.publish q r ∈ ((New t).Release eng githubToken).2 → q = p ∧ r = .ok ref) ∧
      p.address = "ghcr.io/camptocamp/prometheus-rds-exporter:" ++ (New t).Version ∧
      (New t).Version = strings.TrimPrefix t "v" ∧
      Event.sync g (.ok ()) ∈ ((New t).Release eng githubToken).2 ∧
      (∀ q r, Event.sync q r ∈ ((New t).Release eng githubToken).2 → q = g) ∧
      g.execs = [["gh", "release", "create", "--title", t, t], upload] ∧
      g.env = [("GH_REPO", "camptocamp/prometheus-rds-exporter")] ∧
      githubRepository = "camptocamp/prometheus-rds-exporter" := by
  revert hok
  generalize hrun : (New t).Release eng githubToken = run
  refine RdsExporter.release_cases eng (New t) githubToken ?_ ?_ ?_ ?_ ?_ ?_ ?_ ?_ ?_ ?_ ?_
    run hrun
  case refine_11 =>
    intro c0 c1 c2 c3 c4 c5 names sums ref _
    refine ⟨publicationOf (New t) githubToken (containersOf eng (New t) c4 c5), ref,
      githubRunOf (New t) githubToken (archivesOf eng (New t) c0 c1 c2 c3) names sums, _,
      by simp, ?_, by simp [githubRepository], rfl, by simp, ?_, rfl, rfl, rfl⟩
    · intro q r h
      simp at h
      obtain ⟨rfl, rfl⟩ := h
      simp
    · intro q r h
      simp at h
      obtain ⟨rfl, rfl⟩ := h
      simp
  all_goals intros
  all_goals rename_i h
  all_goals simp at h

/-- Witness of C4: the run against the sample engine returns nil and creates
the release for the unmodified tag. -/
theorem RdsExporter.release_publish_and_create_witness :
    ((New "v1.2.3").Release sampleEngine ⟨"token"⟩).1 = .ok () ∧
    ∃ p ref g upload,
      Event.publish p (.ok ref) ∈ ((New "v1.2.3").Release sampleEngine ⟨"token"⟩).2 ∧
      p.address = "ghcr.io/camptocamp/prometheus-rds-exporter:1.2.3" ∧
      Event.sync g (.ok ()) ∈ ((New "v1.2.3").Release sampleEngine ⟨"token"⟩).2 ∧
      g.execs = [["gh", "release", "create", "--title", "v1.2.3", "v1.2.3"], upload] :=
  ⟨by decide,
    match RdsExporter.release_publish_and_create sampleEngine "v1.2.3" ⟨"token"⟩ (by decide) with
    | ⟨p, ref, g, upload, h1, _, h3, _, h5, _, h7, _, _⟩ =>
      ⟨p, ref, g, upload, h1, h3.trans (by decide), h5, h7⟩⟩

/-- Claim C5: For every tag and every engine: `Release` returns nil exactly
when no context call failed; a failed call makes it return a non-nil error
(never a panic) and is the last entry of the trace.  The registry publish is
entry 26 of the trace, after the four archives, the two containers, the
listing and the checksum run, none of which failed; the GitHub CLI run is
entry 27, right after a publish that succeeded; and when the GitHub CLI run
fails, `Release` returns an error, the successful publish stays in the trace
and nothing follows the failed run. -/
theorem RdsExporter.release_failure_handling (eng : Engine) (tag : String)
    (githubToken : dagger.Secret) :
    (((New tag).Release eng githubToken).1 = .ok () ↔
      ∀ e ∈ ((New tag).Release eng githubToken).2, e.failed = false) ∧
    ((∃ e ∈ ((New tag).Release eng githubToken).2, e.failed = true) →
      ∃ msg, ((New tag).Release eng githubToken).1 = .error msg) ∧
    (∀ e ∈ ((New tag).Release eng githubToken).2.dropLast, e.failed = false) ∧
    (∀ p r, Event.publish p r ∈ ((New tag).Release eng githubToken).2 →
      (((New tag).Release eng githubToken).2.take 26).map Event.step =
        [.commit, .binary [("GOOS", "linux"), ("GOARCH", "amd64")],
          .archive [("GOOS", "linux"), ("GOARCH", "amd64")],
          .withFile "prometheus-rds-exporter-linux-amd64.tar.gz",
          .commit, .binary [("GOOS", "linux"), ("GOARCH", "arm64")],
          .archive [("GOOS", "linux"), ("GOARCH", "arm64")],
          .withFile "prometheus-rds-exporter-linux-arm64.tar.gz",
          .commit, .binary [("GOOS", "darwin"), ("GOARCH", "amd64")],
          .archive [("GOOS", "darwin"), ("GOARCH", "amd64")],
          .withFile "prometheus-rds-exporter-darwin-amd64.tar.gz",
          .commit, .binary [("GOOS", "darwin"), ("GOARCH", "arm64")],
          .archive [("GOOS", "darwin"), ("GOARCH", "arm64")],
          .withFile "prometheus-rds-exporter-darwin-arm64.tar.gz",
          .commit, .binary [("GOOS", "linux"), ("GOARCH", "amd64")],
          .overlay [("GOOS", "linux"), ("GOARCH", "amd64")], .container "linux/amd64",
          .commit, .binary [("GOOS", "linux"), ("GOARCH", "arm64")],
          .overlay [("GOOS", "linux"), ("GOARCH", "arm64")], .container "linux/arm64",
          .entries, .stdout ["sha256sum"]] ∧
      (∀ e ∈ ((New tag).Release eng githubToken).2.take 26, e.failed = false) ∧
      ((New tag).Release eng githubToken).2[26]? = some (.publish p r)) ∧
    (∀ g r, Event.sync g r ∈ ((New tag).Release eng githubToken).2 →
      (∃ p ref, ((New tag).Release eng githubToken).2[26]? = some (.publish p (.ok ref))) ∧
      ((New tag).Release eng githubToken).2[27]? = some (.sync g r) ∧
      ((New tag).Release eng githubToken).2.length = 28) ∧
    (∀ g err, Event.sync g (.fail err) ∈ ((New tag).Release eng githubToken).2 →
      (∃ msg, ((New tag).Release eng githubToken).1 = .error msg) ∧
      (∃ p ref, ((New tag).Release eng githubToken).2[26]? = some (.publish p (.ok ref))) ∧
      ((New tag).Release eng githubToken).2[27]? = some (.sync g (.fail err)) ∧
      ((New tag).Release eng githubToken).2.length = 28) :=
  ⟨RdsExporter.release_nil_iff eng (New tag) githubToken,
    RdsExporter.release_error_of_failed eng (New tag) githubToken,
    RdsExporter.release_stops_at_failure eng (New tag) githubToken,
    fun p r h => RdsExporter.release_publish_after eng (New tag) githubToken p r h,
    fun g r h => RdsExporter.release_sync_after eng (New tag) githubToken g r h,
    fun g _ h =>
      ⟨RdsExporter.release_error_of_failed eng (New tag) githubToken ⟨_, h, rfl⟩,
        (RdsExporter.release_sync_after eng (New tag) githubToken g _ h).1,
        (RdsExporter.release_sync_after eng (New tag) githubToken g _ h).2⟩⟩

/-- Claim C6: For every list of archive names that the listing of the
archives directory returns, `Release` runs sha256sum on exactly those names
in the same order, and every GitHub CLI run uploads, for tag `Tag`, exactly
those names in the same order followed by `checksums.txt` as the last asset;
the file written under that name holds the standard output of the sha256sum
run.  The listed directory holds the four archives only, so when the listing
returns names of files of that directory, `checksums.txt` is not an argument
of sha256sum. -/
theorem RdsExporter.release_checksums_and_upload (eng : Engine) (tag : String)
    (githubToken : dagger.Secret) (d : dagger.Directory) (names : List String)
    (hlisted : Event.entries d (.ok names) ∈ ((New tag).Release eng githubToken).2) :
    (∃ r, Event.stdout { mounted := d, exec := "sha256sum" :: names } r ∈
      ((New tag).Release eng githubToken).2) ∧
    (∀ run r, Event.stdout run r ∈ ((New tag).Release eng githubToken).2 →
      run.exec = "sha256sum" :: names) ∧
    (∀ g r, Event.sync g r ∈ ((New tag).Release eng githubToken).2 →
      g.execs[1]? = some (["gh", "release", "upload", tag] ++ names ++ ["checksums.txt"]) ∧
      ∃ run sums, Event.stdout run (.ok sums) ∈ ((New tag).Release eng githubToken).2 ∧
        g.newFiles = [("checksums.txt", sums)]) ∧
    (((New tag).Release eng githubToken).1 = .ok () →
      ∃ g, Event.sync g (.ok ()) ∈ ((New tag).Release eng githubToken).2) ∧
    d.names = ["prometheus-rds-exporter-linux-amd64.tar.gz",
      "prometheus-rds-exporter-linux-arm64.tar.gz",
      "prometheus-rds-exporter-darwin-amd64.tar.gz",
      "prometheus-rds-exporter-darwin-arm64.tar.gz"] ∧
    ((∀ n ∈ names, n ∈ d.names) →
      ∀ run r, Event.stdout run r ∈ ((New tag).Release eng githubToken).2 →
        "checksums.txt" ∉ run.exec) := by
  have main : (∃ r, Event.stdout { mounted := d, exec := "sha256sum" :: names } r ∈
        ((New tag).Release eng githubToken).2) ∧
      (∀ run r, Event.stdout run r ∈ ((New tag).Release eng githubToken).2 →
        run.exec = "sha256sum" :: names) ∧
      (∀ g r, Event.sync g r ∈ ((New tag).Release eng githubToken).2 →
        g.execs[1]? = some (["gh", "release", "upload", tag] ++ names ++ ["checksums.txt"]) ∧
        ∃ run sums, Event.stdout run (.ok sums) ∈ ((New tag).Release eng githubToken).2 ∧
          g.newFiles = [("checksums.txt", sums)]) ∧
      (((New tag).Release eng githubToken).1 = .ok () →
        ∃ g, Event.sync g (.ok ()) ∈ ((New tag).Release eng githubToken).2) ∧
      d.names = ["prometheus-rds-exporter-linux-amd64.tar.gz",
        "prometheus-rds-exporter-linux-arm64.tar.gz",
        "prometheus-rds-exporter-darwin-amd64.tar.gz",
        "prometheus-rds-exporter-darwin-arm64.tar.gz"] := by
    revert hlisted
    generalize hrun : (New tag).Release eng githubToken = run
    refine RdsExporter.release_cases eng (New tag) githubToken ?_ ?_ ?_ ?_ ?_ ?_ ?_ ?_ ?_ ?_ ?_
      run hrun
    all_goals intros
    all_goals rename_i h
    all_goals simp at h
    all_goals obtain ⟨rfl, rfl⟩ := h
    all_goals simp [New, dagger.Directory.names]
  obtain ⟨h1, h2, h3, h4, h5⟩ := main
  refine ⟨h1, h2, h3, h4, h5, fun hn run r hmem hin => ?_⟩
  rw [h2 run r hmem] at hin
  have hin2 : "checksums.txt" ∈ names := by simpa using hin
  have := hn _ hin2
  rw [h5] at this
  simp at this

set_option maxRecDepth 100000

/-- Witness of C6: against the sample engine the listing returns the four
archive names, and sha256sum is run on exactly these. -/
theorem RdsExporter.release_checksums_and_upload_witness :
    Event.entries (archivesOf sampleEngine (New "v1.2.3") "0123abc" "0123abc" "0123abc" "0123abc")
        (.ok ["prometheus-rds-exporter-linux-amd64.tar.gz",
          "prometheus-rds-exporter-linux-arm64.tar.gz",
          "prometheus-rds-exporter-darwin-amd64.tar.gz",
          "prometheus-rds-exporter-darwin-arm64.tar.gz"]) ∈
      ((New "v1.2.3").Release sampleEngine ⟨"token"⟩).2 ∧
    (∀ run r, Event.stdout run r ∈ ((New "v1.2.3").Release sampleEngine ⟨"token"⟩).2 →
      run.exec = "sha256sum" :: ["prometheus-rds-exporter-linux-amd64.tar.gz",
          "prometheus-rds-exporter-linux-arm64.tar.gz",
          "prometheus-rds-exporter-darwin-amd64.tar.gz",
          "prometheus-rds-exporter-darwin-arm64.tar.gz"]) :=
  ⟨by decide,
    (RdsExporter.release_checksums_and_upload sampleEngine "v1.2.3" ⟨"token"⟩
      (archivesOf sampleEngine (New "v1.2.3") "0123abc" "0123abc" "0123abc" "0123abc")
      ["prometheus-rds-exporter-linux-amd64.tar.gz", "prometheus-rds-exporter-linux-arm64.tar.gz",
        "prometheus-rds-exporter-darwin-amd64.tar.gz",
        "prometheus-rds-exporter-darwin-arm64.tar.gz"] (by decide)).2.1⟩

/-- Claim C7: For every tag, a successful `Release` publishes once, and the
platform variants it passes are exactly the two containers it built, for
linux/amd64 and linux/arm64 in this order, both with `GOOS=linux`: the slice
has length 2 and capacity 4, the number of operating systems times the
number of architectures. -/
theorem RdsExporter.release_platform_variants (eng : Engine) (tag : String)
    (githubToken : dagger.Secret)
    (hok : ((New tag).Release eng githubToken).1 = .ok ()) :
    ∃ p ref, Event.publish p (.ok ref) ∈ ((New tag).Release eng githubToken).2 ∧
      (∀ q r, Event.publish q r ∈ ((New tag).Release eng githubToken).2 → q = p) ∧
      p.platformVariants.elems.map (fun c => c.platform) = ["linux/amd64", "linux/arm64"] ∧
      p.platformVariants.elems.map (fun c => c.directory.2.binary.env) =
        [[("GOOS", "linux"), ("GOARCH", "amd64")], [("GOOS", "linux"), ("GOARCH", "arm64")]] ∧
      (∀ c, Event.container c ∈ ((New tag).Release eng githubToken).2 ↔
        c ∈ p.platformVariants.elems) ∧
      p.platformVariants.len = 2 ∧ p.platformVariants.cap = 4 ∧
      ["linux", "darwin"].length * ["amd64", "arm64"].length = 4 := by
  revert hok
  generalize hrun : (New tag).Release eng githubToken = run
  refine RdsExporter.release_cases eng (New tag) githubToken ?_ ?_ ?_ ?_ ?_ ?_ ?_ ?_ ?_ ?_ ?_
    run hrun
  case refine_11 =>
    intro c0 c1 c2 c3 c4 c5 names sums ref _
    refine ⟨publicationOf (New tag) githubToken (containersOf eng (New tag) c4 c5), ref,
      by simp, ?_, by simp, by simp, ?_, rfl, rfl, rfl⟩
    · intro q r h
      simp at h
      obtain ⟨rfl, rfl⟩ := h
      simp
    · intro c
      simp
  all_goals intros
  all_goals rename_i h
  all_goals simp at h

/-- Witness of C7: the run against the sample engine returns nil and
publishes two variants in a slice of capacity four. -/
theorem RdsExporter.release_platform_variants_witness :
    ((New "v1.2.3").Release sampleEngine ⟨"token"⟩).1 = .ok () ∧
    ∃ p ref, Event.publish p (.ok ref) ∈ ((New "v1.2.3").Release sampleEngine ⟨"token"⟩).2 ∧
      p.platformVariants.elems.map (fun c => c.platform) = ["linux/amd64", "linux/arm64"] ∧
      p.platformVariants.len = 2 ∧ p.platformVariants.cap = 4 :=
  ⟨by decide,
    match RdsExporter.release_platform_variants sampleEngine "v1.2.3" ⟨"token"⟩ (by decide) with
    | ⟨p, ref, h1, _, h3, _, _, h6, h7, _⟩ => ⟨p, ref, h1, h3, h6, h7⟩⟩

/-- Claim C8: For every platform `os/arch` (neither part containing `/`) and
every engine, `Binary` does not query the default platform; and for every
commit hash the source returns it describes a binary with `GOOS=os`,
`GOARCH=arch`, built by the six-argument command `go build -o
prometheus-rds-exporter -ldflags L`, where `L` is `-s -w ` followed by the
three settings of `version.Version` (the exporter's `Version`),
`version.Revision` (the commit hash) and `version.BuildDate` (the formatted
current time), in this order, separated by one space and each in single
quotes. -/
theorem RdsExporter.binary_go_build (eng : Engine) (rdsExporter : RdsExporter)
    (os arch : String) (tr : Trace) (hos : '/' ∉ os.data) (harch : '/' ∉ arch.data) :
    (os ++ "/" ++ arch ≠ "") ∧
    (∀ r, Event.defaultPlatform r ∉
      (rdsExporter.Binary eng (os ++ "/" ++ arch) tr).2.drop tr.length) ∧
    (∀ commit, eng.commit tr.length rdsExporter.Source = .ok commit →
      ∃ binary, rdsExporter.Binary eng (os ++ "/" ++ arch) tr =
          (.ok binary,
            tr ++ [.commit (os ++ "/" ++ arch) rdsExporter.Source (.ok commit), .binary binary]) ∧
        binary.env = [("GOOS", os), ("GOARCH", arch)] ∧
        binary.exec = ["go", "build", "-o", "prometheus-rds-exporter", "-ldflags",
          "-s -w " ++ String.intercalate " "
            ["-X 'github.com/prometheus/common/version.Version=" ++ rdsExporter.Version ++ "'",
              "-X 'github.com/prometheus/common/version.Revision=" ++ commit ++ "'",
              "-X 'github.com/prometheus/common/version.BuildDate=" ++
                eng.now (tr.length + 1) ++ "'"]] ∧
        binary.exec.length = 6) := by
  have hne : os ++ "/" ++ arch ≠ "" := by
    intro h
    have hd : ("/" : String).data = ['/'] := rfl
    have he : ("" : String).data = [] := rfl
    have h2 := congrArg String.data h
    simp [String.data_append, hd, he] at h2
  have hs := strings.split_slash_pair os arch hos harch
  have hb := RdsExporter.binary_of_split eng rdsExporter (os ++ "/" ++ arch) tr os arch [] hne hs
  refine ⟨hne, ?_, ?_⟩
  · intro r
    rw [hb]
    cases eng.commit tr.length rdsExporter.Source <;> simp
  · intro commit hc
    rw [hb, hc]
    refine ⟨_, rfl, rfl, ?_, rfl⟩
    simp [binaryOf, RdsExporterBinaryName, String.intercalate, String.intercalate.go,
      String.append_assoc]

/-- Witness of C8: `linux/amd64` against the sample engine. -/
theorem RdsExporter.binary_go_build_witness :
    '/' ∉ "linux".data ∧ '/' ∉ "amd64".data ∧
    ∀ r, Event.defaultPlatform r ∉
      ((New "v1.2.3").Binary sampleEngine ("linux" ++ "/" ++ "amd64") []).2.drop 0 :=
  ⟨by decide, by decide,
    (RdsExporter.binary_go_build sampleEngine (New "v1.2.3") "linux" "amd64" [] (by decide)
      (by decide)).2.1⟩

/-- Claim C9: `Binary` reads element 1 of the platform split on `/` without
a length check.  For every non-empty platform the index is in range exactly
when the platform contains a `/`: without one `Binary` panics (index 1,
length 1) before any engine call; with one it never panics, and the first
entry it writes is the commit query, which records the platform it was
given.  So `linux` panics, and for `linux/arm/v7` the variant is ignored (the
result and the steps are those of `linux/arm`, a binary with `GOARCH=arm`).  In every run of
`Release`, every platform given to `Binary` through `Archive` and `Container`
(the platform of each commit entry) has exactly one `/`; in a run without a
failed call these are linux/amd64, linux/arm64, darwin/amd64, darwin/arm64
and then linux/amd64, linux/arm64; and `Release` never panics. -/
theorem RdsExporter.binary_index_range (eng : Engine) (rdsExporter : RdsExporter)
    (platform : String) (tr : Trace) (hne : platform ≠ "") :
    (((strings.Split platform "/")[1]?).isSome ↔ '/' ∈ platform.data) ∧
    ('/' ∉ platform.data → rdsExporter.Binary eng platform tr = (.panic 1 1, tr)) ∧
    ('/' ∈ platform.data →
      (∀ i n, (rdsExporter.Binary eng platform tr).1 ≠ .panic i n) ∧
      ∃ r rest, (rdsExporter.Binary eng platform tr).2 =
        tr ++ .commit platform rdsExporter.Source r :: rest) ∧
    rdsExporter.Binary eng "linux" tr = (.panic 1 1, tr) ∧
    (rdsExporter.Binary eng "linux/arm/v7" tr).1 = (rdsExporter.Binary eng "linux/arm" tr).1 ∧
    (rdsExporter.Binary eng "linux/arm/v7" tr).2.map Event.step =
      (rdsExporter.Binary eng "linux/arm" tr).2.map Event.step ∧
    (∀ binary, (rdsExporter.Binary eng "linux/arm/v7" tr).1 = .ok binary →
      binary.env = [("GOOS", "linux"), ("GOARCH", "arm")]) ∧
    (∀ githubToken p ref r,
      Event.commit p ref r ∈ (rdsExporter.Release eng githubToken).2 →
        p.data.count '/' = 1) ∧
    (∀ githubToken, (∀ e ∈ (rdsExporter.Release eng githubToken).2, e.failed = false) →
      (rdsExporter.Release eng githubToken).2.filterMap Event.platform? =
        ["linux/amd64", "linux/arm64", "darwin/amd64", "darwin/arm64", "linux/amd64",
          "linux/arm64"]) ∧
    (∀ githubToken i n, (rdsExporter.Release eng githubToken).1 ≠ .panic i n) := by
  have hlen := strings.split_slash_length platform
  have hsl : ("/" : String).data = ['/'] := rfl
  have hv7 := RdsExporter.binary_of_split eng rdsExporter "linux/arm/v7" tr "linux" "arm" ["v7"]
    (by decide) (by decide)
  have harm := RdsExporter.binary_of_split eng rdsExporter "linux/arm" tr "linux" "arm" []
    (by decide) (by decide)
  refine ⟨?_, ?_, ?_, ?_, ?_, ?_, ?_, ?_,
    fun tok hok => RdsExporter.release_platforms eng rdsExporter tok hok,
    fun tok i n => RdsExporter.release_never_panics eng rdsExporter tok i n⟩
  · cases hsp : strings.Split platform "/" with
    | nil => simp [hsp] at hlen
    | cons a l =>
      cases l with
      | nil =>
        simp only [hsp, List.length_singleton] at hlen
        have h0 : platform.data.count '/' = 0 := by omega
        have hnm : '/' ∉ platform.data := List.count_eq_zero.1 h0
        simp [hnm]
      | cons b l =>
        simp only [hsp, List.length_cons] at hlen
        have hp : 0 < platform.data.count '/' := by omega
        have hm : '/' ∈ platform.data := List.count_pos_iff.1 hp
        simp [hm]
  · intro hno
    have hsp : strings.Split platform "/" = [platform] := by
      simp [strings.Split, hsl, strings.genSplit_slash_none _ _ hno]
    unfold RdsExporter.Binary
    simp [hne, hsp]
  · intro hyes
    have hpos : 0 < platform.data.count '/' := List.count_pos_iff.2 hyes
    cases hsp : strings.Split platform "/" with
    | nil => simp [hsp] at hlen
    | cons a l =>
      cases l with
      | nil =>
        simp only [hsp, List.length_singleton] at hlen
        omega
      | cons b l =>
        rw [RdsExporter.binary_of_split eng rdsExporter platform tr a b l hne hsp]
        cases hc : eng.commit tr.length rdsExporter.Source with
        | ok c => exact ⟨by simp, .ok c, _, rfl⟩
        | fail e => exact ⟨by simp, .fail e, _, rfl⟩
  · unfold RdsExporter.Binary
    have hsp : strings.Split "linux" "/" = ["linux"] := by decide
    simp [hsp]
  · rw [hv7, harm]
    cases eng.commit tr.length rdsExporter.Source <;> rfl
  · rw [hv7, harm]
    cases eng.commit tr.length rdsExporter.Source <;> simp [Event.step]
  · intro binary hb
    rw [hv7] at hb
    cases hc : eng.commit tr.length rdsExporter.Source with
    | ok c =>
      simp only [hc, Result.ok.injEq] at hb
      rw [← hb]
      rfl
    | fail e => simp [hc] at hb
  · intro tok p ref r h
    rcases RdsExporter.release_commit_platform eng rdsExporter tok p ref r h with
      rfl | rfl | rfl | rfl <;> decide

/-- Witness of C9: `linux/arm/v7` is not empty, its index 1 is in range. -/
theorem RdsExporter.binary_index_range_witness :
    "linux/arm/v7" ≠ "" ∧
    (((strings.Split "linux/arm/v7" "/")[1]?).isSome ↔ '/' ∈ "linux/arm/v7".data) :=
  ⟨by decide,
    (RdsExporter.binary_index_range sampleEngine (New "v1.2.3") "linux/arm/v7" []
      (by decide)).1⟩

/-- Claim C10 (evaluation of the code): For every tag, `New` takes the source
from `https://github.com/camptocamp/rds_exporter.git`, which is not
`https://github.com/` followed by `githubRepository` and `.git`, the
repository `Release` publishes to. -/
theorem New_source_url (tag : String) :
    (New tag).Source.url = "https://github.com/camptocamp/rds_exporter.git" ∧
    (New tag).Source.tag = tag ∧
    (New tag).Source.url ≠ "https://github.com/" ++ githubRepository ++ ".git" ∧
    "https://github.com/" ++ githubRepository ++ ".git" =
      "https://github.com/camptocamp/prometheus-rds-exporter.git" :=
  ⟨rfl, rfl, by show "https://github.com/camptocamp/rds_exporter.git" ≠ _; decide, by decide⟩

end RdsExporterDagger
